import Mathlib

/-!
Shallow embedding of the QAP/QUBO repository (src/basic_qap.py and
src/time_qap.py) and proofs about it.

Matrices are rational-valued.  A 2-D numpy array is embedded as a
List (List ℚ) (row-major), read through a total accessor with numpy's
in-range behaviour; QUBO matrices are built as functions Nat → Nat → ℚ
and materialised to row-major lists where the code stores them.
The in-place "+=" updates that the python loops perform on Q are
embedded as an explicit list of (address, added value) updates folded
over the matrix, in exactly the iteration order of the source loops.
-/

/-- Entry access m[i][j] with out-of-range default 0. -/
def getE (m : List (List ℚ)) (i j : Nat) : ℚ := (m.getD i []).getD j 0

/-- np.kron(flow, dist): entry (r, c) is flow[r div N, c div N] * dist[r mod N, c mod N],
    for N x N inputs (basic_qap.py line 35, time_qap.py line 66). -/
def kronE (N : Nat) (flow dist : Nat → Nat → ℚ) : Nat → Nat → ℚ :=
  fun r c => flow (r / N) (c / N) * dist (r % N) (c % N)

/-- np.sum(Q) over the N^2 x N^2 Kronecker product (time_qap.py line 67). -/
def kronSum (N : Nat) (flow dist : Nat → Nat → ℚ) : ℚ :=
  ((List.range (N*N)).map (fun r =>
    ((List.range (N*N)).map (fun c => kronE N flow dist r c)).sum)).sum

/-- One in-place addition performed on the QUBO matrix: ((row, col), added value). -/
abbrev Upd := (Nat × Nat) × ℚ

/-- Apply one addition Q[a, b] += v (the += / -= statements of the source). -/
def upd (Q : Nat → Nat → ℚ) (u : Upd) : Nat → Nat → ℚ :=
  fun x y => if u.1.1 = x ∧ u.1.2 = y then Q x y + u.2 else Q x y

/-- Apply a list of additions in order. -/
def applyUpds (Q : Nat → Nat → ℚ) (l : List Upd) : Nat → Nat → ℚ :=
  l.foldl upd Q

/-- Total amount a list of additions adds to entry (x, y). -/
def sumAt (l : List Upd) (x y : Nat) : ℚ :=
  (l.map (fun u => if u.1.1 = x ∧ u.1.2 = y then u.2 else 0)).sum

/-- Row constraint groups: [i*N + m for m in range(N)] for each facility i
    (basic_qap.py lines 40-41, time_qap.py lines 77-78). -/
def rowGroups (N : Nat) : List (List Nat) :=
  (List.range N).map (fun i => (List.range N).map (fun m => i * N + m))

/-- Column constraint groups: [m + N*i for i in range(N)] for each location m
    (basic_qap.py lines 42-43, time_qap.py lines 79-80). -/
def colGroups (N : Nat) : List (List Nat) :=
  (List.range N).map (fun m => (List.range N).map (fun i => m + N * i))

/-- constraint_groups = row groups then column groups. -/
def constraintGroups (N : Nat) : List (List Nat) :=
  rowGroups N ++ colGroups N

/-- The additions performed for one constraint group: for positions i <= j of the
    group, the diagonal gets -= penalty when i = j, and both symmetric off-diagonal
    entries get += penalty otherwise (basic_qap.py lines 46-54, time_qap.py
    lines 83-91).  range(i, len) is List.range' i (len - i). -/
def groupUpds (P : ℚ) (g : List Nat) : List Upd :=
  ((List.range g.length).map (fun i =>
    ((List.range' i (g.length - i)).map (fun j =>
      if i = j then [((g.getD i 0, g.getD j 0), -P)]
      else [((g.getD i 0, g.getD j 0), P), ((g.getD j 0, g.getD i 0), P)])).flatten)).flatten

/-- All row/column constraint additions, in source iteration order. -/
def penaltyUpds (P : ℚ) (N : Nat) : List Upd :=
  ((constraintGroups N).map (groupUpds P)).flatten

/-- The closet/department diagonal additions (time_qap.py lines 94-101): for a
    facility i on one side of the cut k, every location m on the other side gets
    Q[i*N+m, i*N+m] += row_col_penalty.  k is an arbitrary python int; python
    range(k, N) and range(k) with a non-positive k are embedded via Int.toNat. -/
def closetUpds (rcp : ℚ) (k : Int) (N : Nat) : List Upd :=
  ((List.range N).map (fun i =>
    if Int.ofNat i < k then
      (List.range' k.toNat (N - k.toNat)).map (fun m => ((i * N + m, i * N + m), rcp))
    else
      (List.range k.toNat).map (fun m => ((i * N + m, i * N + m), rcp)))).flatten

/-- Kronecker product plus row/column one-hot penalties with explicit penalty P.
    This is exactly QAP.generate_qubo of basic_qap.py (no closet phase there),
    and the common core of time_QAP.generate_qubo. -/
def quboCore (N : Nat) (flow dist : Nat → Nat → ℚ) (P : ℚ) : Nat → Nat → ℚ :=
  applyUpds (kronE N flow dist) (penaltyUpds P N)

/-- time_QAP.generate_qubo (time_qap.py lines 60-104) as a pure function:
    returns the final QUBO entry function together with the row_col_penalty
    value it stores (np.sum of the raw Kronecker product).  A missing penalty
    argument defaults to that sum; the closet phase runs when num_closets is set. -/
def quboTime (N : Nat) (flow dist : Nat → Nat → ℚ)
    (penalty : Option ℚ) (nc : Option Int) : (Nat → Nat → ℚ) × ℚ :=
  let rcp := kronSum N flow dist
  let P := penalty.getD rcp
  let Q1 := quboCore N flow dist P
  match nc with
  | none => (Q1, rcp)
  | some k => (applyUpds Q1 (closetUpds rcp k N), rcp)

/-- QAP.generate_qubo of basic_qap.py called without a penalty argument:
    the python default value is the constant 100 (basic_qap.py line 31). -/
def basicQuboDefault (N : Nat) (flow dist : Nat → Nat → ℚ) : Nat → Nat → ℚ :=
  quboCore N flow dist 100

/-- Materialise an entry function to an n x n row-major list matrix. -/
def matFn (n : Nat) (f : Nat → Nat → ℚ) : List (List ℚ) :=
  (List.range n).map (fun r => (List.range n).map (fun c => f r c))

theorem applyUpds_apply (l : List Upd) : ∀ (Q : Nat → Nat → ℚ) (x y : Nat),
    applyUpds Q l x y = Q x y + sumAt l x y := by
  induction l with
  | nil => intro Q x y; simp [applyUpds, sumAt]
  | cons u t ih =>
    intro Q x y
    have h1 : applyUpds Q (u :: t) = applyUpds (upd Q u) t := rfl
    rw [h1, ih]
    simp only [sumAt, List.map_cons, List.sum_cons, upd]
    split_ifs <;> ring

theorem sumAt_append (l₁ l₂ : List Upd) (x y : Nat) :
    sumAt (l₁ ++ l₂) x y = sumAt l₁ x y + sumAt l₂ x y := by
  simp [sumAt]

theorem sumAt_flatten (L : List (List Upd)) (x y : Nat) :
    sumAt L.flatten x y = (L.map (fun l => sumAt l x y)).sum := by
  induction L with
  | nil => simp [sumAt]
  | cons l t ih => simp [List.flatten_cons, sumAt_append, ih]

/-- Python exception kinds raised by the source.  The spec groups TypeError and
    ValueError as its ValidationError taxon; RuntimeError (wrong lifecycle
    state) is the spec's StateError taxon. -/
inductive PyErr where
  | typeErr
  | valueErr
  | runtimeErr
deriving DecidableEq, Repr

/-- A python value passed where a 2-D numpy array is expected: a 2-D array
    (row-major, rectangular), a numpy array of another dimensionality (its
    contents never matter to the source code), or a non-array value. -/
inductive PyVal where
  | npmat (data : List (List ℚ))
  | nparr (ndim : Nat)
  | nonArray
deriving DecidableEq, Repr

def isNpArray : PyVal → Bool
  | .nonArray => false
  | _ => true

def ndimOf : PyVal → Nat
  | .npmat _ => 2
  | .nparr n => n
  | .nonArray => 0

def matOf : PyVal → List (List ℚ)
  | .npmat d => d
  | _ => []

/-- shape[0] of a 2-D array. -/
def shape0 : PyVal → Nat
  | .npmat d => d.length
  | _ => 0

/-- shape[1] of a 2-D (rectangular) array: the length of its first row. -/
def shape1 : PyVal → Nat
  | .npmat d => (d.headD []).length
  | _ => 0

/-- The num_closets argument: None, a python int, or a value of another type. -/
inductive PyNum where
  | pyNone
  | pyInt (k : Int)
  | nonInt
deriving DecidableEq, Repr

/-- The fields of a time_QAP instance (time_qap.py).  The default_sampler field
    is an opaque external solver handle; it is passed explicitly to the
    operations that use it instead of being stored here. -/
structure TState where
  flow : List (List ℚ)
  dist : List (List ℚ)
  size : Nat
  time : Nat
  prev_state : Option (List (List ℚ))
  cur_state : Option (List (List ℚ))
  num_closets : Option Int
  qubo : List (List ℚ)
  row_col_penalty : ℚ
deriving DecidableEq, Repr

/-- time_QAP.generate_qubo as a state transformer: recomputes and stores
    qubo (materialised N^2 x N^2) and row_col_penalty. -/
def timeGenerateQubo (s : TState) (penalty : Option ℚ) : TState :=
  let pr := quboTime s.size (getE s.flow) (getE s.dist) penalty s.num_closets
  { s with qubo := matFn (s.size * s.size) pr.1, row_col_penalty := pr.2 }

/-- time_QAP.__init__ (time_qap.py lines 6-58): validation in source order,
    then field setup and the initial generate_qubo() call. -/
def timeQAPInit (flow dist : PyVal) (nc : PyNum) : Except PyErr TState :=
  if isNpArray flow = false then .error .typeErr
  else if isNpArray dist = false then .error .typeErr
  else if ndimOf flow ≠ 2 ∨ ndimOf dist ≠ 2 then .error .valueErr
  else if shape0 flow ≠ shape1 flow ∨ shape0 dist ≠ shape1 dist then .error .valueErr
  else if ¬(shape0 flow = shape0 dist ∧ shape1 flow = shape1 dist) then .error .valueErr
  else
    match nc with
    | .nonInt => .error .typeErr
    | .pyInt k =>
        if Int.ofNat (shape0 flow) ≤ k then .error .valueErr
        else .ok (timeGenerateQubo
          { flow := matOf flow, dist := matOf dist, size := shape0 flow, time := 0,
            prev_state := none, cur_state := none, num_closets := some k,
            qubo := [], row_col_penalty := 0 } none)
    | .pyNone => .ok (timeGenerateQubo
          { flow := matOf flow, dist := matOf dist, size := shape0 flow, time := 0,
            prev_state := none, cur_state := none, num_closets := none,
            qubo := [], row_col_penalty := 0 } none)

def argmaxGo : List ℚ → ℚ → Nat → Nat → Nat
  | [], _, bi, _ => bi
  | x :: xs, bv, bi, idx => if bv < x then argmaxGo xs x idx (idx+1) else argmaxGo xs bv bi (idx+1)

/-- np.argmax over one row: index of the first maximal entry. -/
def argmaxL (l : List ℚ) : Nat :=
  match l with
  | [] => 0
  | x :: xs => argmaxGo xs x 0 1

/-- Factors consumed from facility i's dist row after its first t inner steps:
    product of dist[pl i, m] over m < t. -/
def prodRow (dist : Nat → Nat → ℚ) (pl : Nat → Nat) (i t : Nat) : ℚ :=
  ((List.range t).map (fun m => dist (pl i) m)).prod

/-- Product of all factors of the first t full facility rows. -/
def prodAll (dist : Nat → Nat → ℚ) (pl : Nat → Nat) (N t : Nat) : ℚ :=
  ((List.range t).map (fun i => prodRow dist pl i N)).prod

/-- Inner loop of the transition-penalty phase for facility i: each step
    multiplies the running accumulator by dist[pl i, m] and records the
    diagonal addition at (i*N+m, i*N+m) (time_qap.py lines 164-166). -/
def transInner (dist : Nat → Nat → ℚ) (N : Nat) (pl : Nat → Nat) (i : Nat)
    (acc : ℚ × List Upd) : ℚ × List Upd :=
  (List.range N).foldl (fun a m =>
    (a.1 * dist (pl i) m, a.2 ++ [((i * N + m, i * N + m), a.1 * dist (pl i) m)])) acc

/-- time_qap.py lines 160-166: move_penalty seeded at 10 once, before the loops,
    then the nested facility/location loops; the accumulator is carried across
    facilities, never reset.  Returns (final accumulator, diagonal additions). -/
def transPen (N : Nat) (dist : Nat → Nat → ℚ) (pl : Nat → Nat) : ℚ × List Upd :=
  (List.range N).foldl (fun a i => transInner dist N pl i a) (10, [])

/-- Decoding of the best sample: np.array(list(resp.values())).reshape((N, N)). -/
def reshape (N : Nat) (l : List ℚ) : List (List ℚ) :=
  (List.range N).map (fun i => (List.range N).map (fun j => l.getD (i * N + j) 0))

/-- time_QAP.time_init (time_qap.py lines 106-120).  resp is the flattened best
    sample returned by the external solver (an opaque collaborator). -/
def timeInit (s : TState) (resp : List ℚ) : Except (PyErr × TState) (TState × List (List ℚ)) :=
  match s.cur_state with
  | some _ => .error (.runtimeErr, s)
  | none =>
    let arr := reshape s.size resp
    .ok ({ s with cur_state := some arr }, arr)

/-- time_QAP.time_evolve (time_qap.py lines 122-173): lifecycle check, input
    validation in source order, penalty defaulting from the stored
    row_col_penalty, flow replacement, generate_qubo, prev_state update,
    transition penalties, then the new sampled state and the time increment.
    resp is the flattened best sample from the external solver.  Errors carry
    the state of the object at the moment of the raise. -/
def timeEvolve (s : TState) (new_flow : PyVal) (penalty : Option ℚ) (resp : List ℚ) :
    Except (PyErr × TState) (TState × List (List ℚ)) :=
  match s.cur_state with
  | none => .error (.runtimeErr, s)
  | some _ =>
    if isNpArray new_flow = false then .error (.typeErr, s)
    else if ndimOf new_flow ≠ 2 then .error (.valueErr, s)
    else if shape0 new_flow ≠ shape1 new_flow then .error (.valueErr, s)
    else if ¬(shape0 new_flow = s.dist.length ∧ shape1 new_flow = (s.dist.headD []).length)
      then .error (.valueErr, s)
    else
      let P := penalty.getD s.row_col_penalty
      let s1 := { s with flow := matOf new_flow }
      let s2 := timeGenerateQubo s1 (some P)
      let s3 := { s2 with prev_state := s2.cur_state }
      let prev := s3.prev_state.getD []
      let pl := fun i => argmaxL (prev.getD i [])
      let q2 := applyUpds (getE s3.qubo) (transPen s3.size (getE s3.dist) pl).2
      let s4 := { s3 with qubo := matFn (s3.size * s3.size) q2 }
      let arr := reshape s4.size resp
      .ok ({ s4 with cur_state := some arr, time := s4.time + 1 }, arr)

/-- An external solver handle: given the qubo matrix and the shot count it
    returns the flattened best sample. -/
abbrev Sampler := List (List ℚ) → Nat → List ℚ

/-- time_QAP.sample_qap (time_qap.py lines 175-190).  dflt stands for the
    stored self.default_sampler.  Returns the (matrix, shots) pair actually
    passed to the solver, the solver response, and the state after the call. -/
def sampleQap (dflt : Sampler) (s : TState) (sampler : Option Sampler)
    (shots : Nat) (penalty : Option ℚ) :
    (List (List ℚ) × Nat) × List ℚ × TState :=
  let smp := sampler.getD dflt
  let _pen := penalty.getD s.row_col_penalty
  ((s.qubo, shots), smp s.qubo shots, s)

theorem getD_set_ne {α : Type} : ∀ (l : List α) (i j : Nat) (a d : α), i ≠ j →
    (l.set i a).getD j d = l.getD j d := by
  intro l
  induction l with
  | nil => intro i j a d _; cases i <;> rfl
  | cons x xs ih =>
    intro i j a d hij
    cases i with
    | zero => cases j with
      | zero => exact absurd rfl hij
      | succ j2 => rfl
    | succ i2 => cases j with
      | zero => rfl
      | succ j2 => simpa using ih i2 j2 a d (fun h => hij (by rw [h]))

theorem prodRow_succ (dist : Nat → Nat → ℚ) (pl : Nat → Nat) (i t : Nat) :
    prodRow dist pl i (t + 1) = prodRow dist pl i t * dist (pl i) t := by
  simp [prodRow, List.range_succ]

theorem prodAll_succ (dist : Nat → Nat → ℚ) (pl : Nat → Nat) (N t : Nat) :
    prodAll dist pl N (t + 1) = prodAll dist pl N t * prodRow dist pl t N := by
  simp [prodAll, List.range_succ]

theorem transInner_go (dist : Nat → Nat → ℚ) (N : Nat) (pl : Nat → Nat) (i : Nat) :
    ∀ (n : Nat) (a : ℚ) (done : List Upd),
      (List.range n).foldl (fun acc m =>
          (acc.1 * dist (pl i) m, acc.2 ++ [((i * N + m, i * N + m), acc.1 * dist (pl i) m)]))
        (a, done)
      = (a * prodRow dist pl i n,
         done ++ (List.range n).map (fun m =>
           ((i * N + m, i * N + m), a * prodRow dist pl i (m + 1)))) := by
  intro n
  induction n with
  | zero => intro a done; simp [prodRow]
  | succ t ih =>
    intro a done
    rw [List.range_succ, List.foldl_append, ih a done]
    simp only [List.foldl_cons, List.foldl_nil, List.range_succ, List.map_append,
      List.map_cons, List.map_nil, List.append_assoc, List.singleton_append,
      prodRow_succ, mul_assoc]

/-- The inner loop in closed form: it scales the accumulator by the facility's full
    dist row and records, at each diagonal address, the accumulator value reached
    after consuming that location's factor. -/
theorem transInner_closed (dist : Nat → Nat → ℚ) (N : Nat) (pl : Nat → Nat) (i : Nat)
    (a : ℚ) (done : List Upd) :
    transInner dist N pl i (a, done)
      = (a * prodRow dist pl i N,
         done ++ (List.range N).map (fun m =>
           ((i * N + m, i * N + m), a * prodRow dist pl i (m + 1)))) :=
  transInner_go dist N pl i N a done

theorem transPen_go (dist : Nat → Nat → ℚ) (N : Nat) (pl : Nat → Nat) :
    ∀ (K : Nat),
      (List.range K).foldl (fun a i => transInner dist N pl i a) (10, [])
      = (10 * prodAll dist pl N K,
         ((List.range K).map (fun i => (List.range N).map (fun m =>
           ((i * N + m, i * N + m),
            10 * prodAll dist pl N i * prodRow dist pl i (m + 1))))).flatten) := by
  intro K
  induction K with
  | zero => simp [prodAll]
  | succ t ih =>
    rw [List.range_succ, List.foldl_append, ih]
    simp only [List.foldl_cons, List.foldl_nil, transInner_closed, List.range_succ,
      List.map_append, List.map_cons, List.map_nil, List.flatten_append,
      List.flatten_cons, List.flatten_nil, List.append_nil, prodAll_succ, mul_assoc]

/-- C1: in time_evolve, the transition penalty added to the diagonal entry of
    the (facility i, candidate location m) variable is the single running
    multiplicative accumulator of time_qap.py lines 160-166: seeded once at the
    base constant 10 before the loops, multiplied by
    dist[previous location of facility i, m] before each addition, and carried
    across facilities without a per-facility reset.  The update list produced by
    the transition phase is exactly, for each (i, m) in row-major order, the
    diagonal address (i*N+m, i*N+m) paired with
    10 * (product of the dist factors of all full rows before facility i)
       * (product of the dist factors of facility i's row up to column m inclusive),
    i.e. 10 times the running row-major product of every dist factor encountered
    so far, the (i, m) factor included. -/
theorem c1_running_product (N : Nat) (dist : Nat → Nat → ℚ) (pl : Nat → Nat) :
    (transPen N dist pl).2
      = ((List.range N).map (fun i => (List.range N).map (fun m =>
          ((i * N + m, i * N + m),
           10 * prodAll dist pl N i * prodRow dist pl i (m + 1))))).flatten := by
  unfold transPen
  rw [transPen_go]

theorem sumAt_pair_symm (a b : Nat) (v : ℚ) (x y : Nat) :
    sumAt [((a, b), v), ((b, a), v)] x y = sumAt [((a, b), v), ((b, a), v)] y x := by
  simp only [sumAt, List.map_cons, List.map_nil, List.sum_cons, List.sum_nil, add_zero]
  rw [add_comm]
  exact congrArg₂ (· + ·) (if_congr and_comm rfl rfl) (if_congr and_comm rfl rfl)

theorem sumAt_diag_symm (l : List Upd) (h : ∀ u ∈ l, u.1.1 = u.1.2) (x y : Nat) :
    sumAt l x y = sumAt l y x := by
  induction l with
  | nil => rfl
  | cons u t ih =>
    have hu : u.1.1 = u.1.2 := h u (List.mem_cons_self u t)
    have ht : ∀ w ∈ t, w.1.1 = w.1.2 := fun w hw => h w (List.mem_cons_of_mem u hw)
    simp only [sumAt, List.map_cons, List.sum_cons] at *
    rw [ih ht, hu]
    by_cases h1 : u.1.2 = x <;> by_cases h2 : u.1.2 = y <;> simp [h1, h2]

theorem sumAt_groupUpds_symm (P : ℚ) (g : List Nat) (x y : Nat) :
    sumAt (groupUpds P g) x y = sumAt (groupUpds P g) y x := by
  unfold groupUpds
  rw [sumAt_flatten, sumAt_flatten]
  simp only [List.map_map]
  congr 1
  refine List.map_congr_left ?_
  intro i _
  simp only [Function.comp_apply]
  rw [sumAt_flatten, sumAt_flatten]
  simp only [List.map_map]
  congr 1
  refine List.map_congr_left ?_
  intro j _
  simp only [Function.comp_apply]
  by_cases hij : i = j
  · subst hij
    simp only [if_pos rfl]
    exact sumAt_diag_symm _ (by intro u hu; simp at hu; subst hu; rfl) x y
  · simp only [if_neg hij]
    exact sumAt_pair_symm _ _ _ x y

theorem sumAt_penaltyUpds_symm (P : ℚ) (N x y : Nat) :
    sumAt (penaltyUpds P N) x y = sumAt (penaltyUpds P N) y x := by
  unfold penaltyUpds
  rw [sumAt_flatten, sumAt_flatten]
  simp only [List.map_map]
  congr 1
  refine List.map_congr_left ?_
  intro g _
  exact sumAt_groupUpds_symm P g x y

theorem closetUpds_diag (rcp : ℚ) (k : Int) (N : Nat) :
    ∀ u ∈ closetUpds rcp k N, u.1.1 = u.1.2 := by
  intro u hu
  unfold closetUpds at hu
  rw [List.mem_flatten] at hu
  obtain ⟨l, hl, hul⟩ := hu
  rw [List.mem_map] at hl
  obtain ⟨i, _, rfl⟩ := hl
  by_cases hik : Int.ofNat i < k
  · rw [if_pos hik] at hul
    rw [List.mem_map] at hul
    obtain ⟨m, _, rfl⟩ := hul
    rfl
  · rw [if_neg hik] at hul
    rw [List.mem_map] at hul
    obtain ⟨m, _, rfl⟩ := hul
    rfl

theorem kronE_symm (N : Nat) (flow dist : Nat → Nat → ℚ)
    (hf : ∀ i j, flow i j = flow j i) (hd : ∀ i j, dist i j = dist j i) (x y : Nat) :
    kronE N flow dist x y = kronE N flow dist y x := by
  unfold kronE
  rw [hf (x / N) (y / N), hd (x % N) (y % N)]

theorem quboCore_symm (N : Nat) (flow dist : Nat → Nat → ℚ) (P : ℚ)
    (hf : ∀ i j, flow i j = flow j i) (hd : ∀ i j, dist i j = dist j i) (x y : Nat) :
    quboCore N flow dist P x y = quboCore N flow dist P y x := by
  unfold quboCore
  rw [applyUpds_apply, applyUpds_apply, kronE_symm N flow dist hf hd x y,
    sumAt_penaltyUpds_symm]

/-- C2 counterexample: a pair of valid (2-D, square, equal-shaped) but
    individually asymmetric matrices for which generate_qubo is not equal to
    its own transpose: with flow = [[0,1],[0,0]], dist = [[0,1],[2,0]] the
    entries at (0,3) and (3,0) differ (the Kronecker product is asymmetric and
    the constraint penalties never touch that variable pair). -/
theorem c2_cex :
    (quboTime 2 (getE [[0, 1], [0, 0]]) (getE [[0, 1], [2, 0]]) none none).1 0 3 ≠
      (quboTime 2 (getE [[0, 1], [0, 0]]) (getE [[0, 1], [2, 0]]) none none).1 3 0 := by
  with_unfolding_all decide

/-- C2 amended: for valid inputs whose flow and dist matrices are each
    symmetric (the symmetry the spec notes holds in practice), generate_qubo
    (time_qap.py lines 60-104; basic_qap.py lines 31-56 is the nc = none case
    with its given penalty) produces a matrix equal to its own transpose, of
    shape N^2 x N^2 once materialised. -/
theorem c2_symmetric (N : Nat) (flow dist : Nat → Nat → ℚ) (P : Option ℚ) (nc : Option Int)
    (hf : ∀ i j, flow i j = flow j i) (hd : ∀ i j, dist i j = dist j i) :
    (∀ x y, (quboTime N flow dist P nc).1 x y = (quboTime N flow dist P nc).1 y x) ∧
    (matFn (N * N) (quboTime N flow dist P nc).1).length = N * N ∧
    (∀ row ∈ matFn (N * N) (quboTime N flow dist P nc).1, row.length = N * N) := by
  refine ⟨?_, ?_, ?_⟩
  · intro x y
    cases nc with
    | none =>
      exact quboCore_symm N flow dist (P.getD (kronSum N flow dist)) hf hd x y
    | some k =>
      show applyUpds (quboCore N flow dist (P.getD (kronSum N flow dist)))
          (closetUpds (kronSum N flow dist) k N) x y = applyUpds _ _ y x
      rw [applyUpds_apply, applyUpds_apply,
        quboCore_symm N flow dist (P.getD (kronSum N flow dist)) hf hd x y,
        sumAt_diag_symm _ (closetUpds_diag (kronSum N flow dist) k N) x y]
  · simp [matFn]
  · intro row hrow
    rw [matFn, List.mem_map] at hrow
    obtain ⟨r, _, rfl⟩ := hrow
    simp

/-- Witness for c2_symmetric at the all-ones 2 x 2 symmetric pair. -/
theorem c2_witness :
    (quboTime 2 (fun _ _ => (1 : ℚ)) (fun _ _ => (1 : ℚ)) none none).1 1 2 =
      (quboTime 2 (fun _ _ => (1 : ℚ)) (fun _ _ => (1 : ℚ)) none none).1 2 1 :=
  (c2_symmetric 2 (fun _ _ => (1 : ℚ)) (fun _ _ => (1 : ℚ)) none none
    (fun _ _ => rfl) (fun _ _ => rfl)).1 1 2

set_option maxRecDepth 100000

/-- Flow matrix of the spec's concrete scenario. -/
def f3 : List (List ℚ) := [[0, 5, 2], [5, 0, 3], [2, 3, 0]]

/-- Distance matrix of the spec's concrete scenario. -/
def d3 : List (List ℚ) := [[0, 8, 15], [8, 0, 13], [15, 13, 0]]

/-- generate_qubo on the scenario pair with penalty = 100 and no group cut. -/
def q3 : Nat → Nat → ℚ := (quboTime 3 (getE f3) (getE d3) (some 100) none).1

/-- Raw Kronecker product of the scenario pair. -/
def kron3 : Nat → Nat → ℚ := kronE 3 (getE f3) (getE d3)

/-- The entries the claim predicts, written from the spec's words: diagonal
    entries are the raw entry minus exactly 100; off-diagonal entries of two
    variables sharing a row group (same facility, r div 3 = c div 3) or a
    column group (same location, r mod 3 = c mod 3) are the raw entry plus
    exactly 100. -/
def c3Claimed (r c : Nat) : ℚ :=
  if r = c then kron3 r c - 100
  else if r / 3 = c / 3 ∨ r % 3 = c % 3 then kron3 r c + 100
  else kron3 r c

/-- Corrected prediction: each variable lies in exactly one row group and one
    column group, and the source subtracts the penalty from the diagonal once
    per group, so every diagonal entry is the raw entry minus 200 (= 2 * 100). -/
def c3Amended (r c : Nat) : ℚ :=
  if r = c then kron3 r c - 200
  else if r / 3 = c / 3 ∨ r % 3 = c % 3 then kron3 r c + 100
  else kron3 r c

/-- C3 counterexample: at diagonal entry (0, 0) the built QUBO is the raw
    Kronecker entry minus 200, not minus 100 as the claim predicts. -/
theorem c3_cex : q3 0 0 ≠ c3Claimed 0 0 := by
  with_unfolding_all decide

/-- C3 amended: on the scenario pair with penalty 100 and no group cut,
    generate_qubo returns a symmetric 9 x 9 matrix whose diagonal entries are
    the raw Kronecker entries minus exactly 200 (the 100 penalty is applied
    once for the row group and once for the column group), whose off-diagonal
    same-group entries are the raw entries plus exactly 100, and whose
    remaining entries are the raw entries. -/
theorem c3_entries :
    (∀ (r c : Fin 9), q3 r.1 c.1 = c3Amended r.1 c.1 ∧ q3 r.1 c.1 = q3 c.1 r.1) ∧
    (matFn 9 q3).length = 9 ∧ (∀ row ∈ matFn 9 q3, row.length = 9) := by
  with_unfolding_all decide

/-- C4 counterexample: QAP.generate_qubo of basic_qap.py called without an
    explicit penalty argument uses its default 100, not the Kronecker-sum:
    on the 1 x 1 pair [[1]], [[1]] (entry sum 1) the default call yields
    1 - 2*100 = -199 at (0,0) while the sum-penalised call yields 1 - 2*1 = -1. -/
theorem c4_cex :
    basicQuboDefault 1 (getE [[1]]) (getE [[1]]) 0 0 ≠
      quboCore 1 (getE [[1]]) (getE [[1]]) (kronSum 1 (getE [[1]]) (getE [[1]])) 0 0 := by
  with_unfolding_all decide

/-- C4 amended: time_QAP.generate_qubo called without a penalty argument
    behaves exactly as if called with the sum of all entries of flow ⊗ dist
    (time_qap.py lines 67-71); the default of basic_qap.py's QAP.generate_qubo
    is instead the constant 100. -/
theorem c4_defaults :
    (∀ (N : Nat) (flow dist : Nat → Nat → ℚ) (nc : Option Int),
      quboTime N flow dist none nc = quboTime N flow dist (some (kronSum N flow dist)) nc) ∧
    (∀ (N : Nat) (flow dist : Nat → Nat → ℚ),
      basicQuboDefault N flow dist = quboCore N flow dist 100) :=
  ⟨fun _ _ _ _ => rfl, fun _ _ _ => rfl⟩

/-- The tracker built by time_QAP.__init__ on flow = dist = [[0,1],[1,0]]
    (no closets); its stored row_col_penalty is 4. -/
def c5Pre : TState :=
  timeGenerateQubo
    { flow := [[0, 1], [1, 0]], dist := [[0, 1], [1, 0]], size := 2, time := 0,
      prev_state := none, cur_state := none, num_closets := none,
      qubo := [], row_col_penalty := 0 } none

/-- c5Pre after time_init consumed the best sample [1,0,0,1] (identity assignment). -/
def c5State : TState := { c5Pre with cur_state := some [[1, 0], [0, 1]] }

/-- Entry (0,0) of the qubo stored by a successful call, none on failure. -/
def okQubo00 : Except (PyErr × TState) (TState × List (List ℚ)) → Option ℚ
  | .ok (s, _) => some (getE s.qubo 0 0)
  | .error _ => none

/-- C5 counterexample: the states c5Pre / c5State are reachable via the
    constructor and time_init; the new flow [[0,2],[2,0]] has Kronecker-sum
    8 with the stored dist, yet time_evolve without a penalty override builds
    the qubo with the stale stored penalty 4 (diagonal (0,0) becomes -8),
    not with the freshly computed 8 (which would give -16). -/
theorem c5_cex :
    (timeQAPInit (.npmat [[0, 1], [1, 0]]) (.npmat [[0, 1], [1, 0]]) .pyNone).toOption = some c5Pre ∧
    (timeInit c5Pre [1, 0, 0, 1]).toOption = some (c5State, [[1, 0], [0, 1]]) ∧
    kronSum 2 (getE [[0, 2], [2, 0]]) (getE [[0, 1], [1, 0]]) = 8 ∧
    okQubo00 (timeEvolve c5State (.npmat [[0, 2], [2, 0]]) none [1, 0, 0, 1]) = some (-8) ∧
    okQubo00 (timeEvolve c5State (.npmat [[0, 2], [2, 0]]) (some 8) [1, 0, 0, 1]) = some (-16) := by
  with_unfolding_all decide

/-- C5 amended: when time_evolve is called without a penalty override, the
    row/column constraint penalty used to rebuild the qubo is the stored
    row_col_penalty from before the call (computed from the previous flow
    matrix): the call is indistinguishable from one passing that stored value
    explicitly.  (generate_qubo then overwrites the stored field with the new
    flow's Kronecker sum, but that fresh value is not the penalty applied.) -/
theorem c5_stale_penalty (s : TState) (nf : PyVal) (resp : List ℚ) :
    timeEvolve s nf none resp = timeEvolve s nf (some s.row_col_penalty) resp := by
  unfold timeEvolve
  cases s.cur_state <;> rfl

/-- C7: time_evolve on an uninitialised tracker always fails with the
    lifecycle error (python RuntimeError, the spec's StateError), and time_init
    on an already-initialised tracker always fails the same way; in both cases
    the raise happens before anything else, so the error carries the tracker
    state exactly as it was. -/
theorem c7_state_errors :
    (∀ (s : TState) (nf : PyVal) (p : Option ℚ) (resp : List ℚ),
      s.cur_state = none → timeEvolve s nf p resp = .error (.runtimeErr, s)) ∧
    (∀ (s : TState) (resp : List ℚ) (c : List (List ℚ)),
      s.cur_state = some c → timeInit s resp = .error (.runtimeErr, s)) := by
  constructor
  · intro s nf p resp h
    unfold timeEvolve
    rw [h]
  · intro s resp c h
    unfold timeInit
    rw [h]

/-- A concrete uninitialised 1 x 1 tracker state. -/
def tNoCur : TState :=
  { flow := [[0]], dist := [[0]], size := 1, time := 0, prev_state := none,
    cur_state := none, num_closets := none, qubo := [[0]], row_col_penalty := 0 }

/-- A concrete initialised 1 x 1 tracker state. -/
def tWithCur : TState :=
  { flow := [[0]], dist := [[0]], size := 1, time := 0, prev_state := none,
    cur_state := some [[1]], num_closets := none, qubo := [[0]], row_col_penalty := 0 }

/-- Witness for c7_state_errors on concrete trackers. -/
theorem c7_witness :
    timeEvolve tNoCur (.npmat [[1]]) none [] = .error (.runtimeErr, tNoCur) ∧
    timeInit tWithCur [] = .error (.runtimeErr, tWithCur) :=
  ⟨c7_state_errors.1 tNoCur (.npmat [[1]]) none [] rfl,
   c7_state_errors.2 tWithCur [] [[1]] rfl⟩

/-- C9: whenever time_evolve fails - wrong lifecycle state or invalid input
    (non-array, non-2-D, non-square, or shape mismatch with dist) - the tracker
    state carried by the error is exactly the pre-call state: every raise in
    time_evolve happens before the first field assignment. -/
theorem c9_no_mutation (s : TState) (nf : PyVal) (p : Option ℚ) (resp : List ℚ)
    (e : PyErr) (s2 : TState) (h : timeEvolve s nf p resp = .error (e, s2)) : s2 = s := by
  unfold timeEvolve at h
  cases hc : s.cur_state with
  | none =>
    rw [hc] at h
    simp only [Except.error.injEq, Prod.mk.injEq] at h
    exact h.2.symm
  | some c =>
    rw [hc] at h
    split_ifs at h <;> simp only [Except.error.injEq, Prod.mk.injEq] at h <;> exact h.2.symm

/-- Witness for c9_no_mutation: a concrete failing call (non-array input). -/
theorem c9_witness : tWithCur = tWithCur :=
  c9_no_mutation tWithCur .nonArray none [] .typeErr tWithCur rfl

/-- C10: the penalty argument of sample_qap is dead: it is defaulted
    (time_qap.py lines 185-186) and then never used, so any two penalty values
    lead to the same solver invocation on the stored qubo with the given shot
    count, the same response, and an unchanged tracker state. -/
theorem c10_penalty_unused (dflt : Sampler) (s : TState) (smp : Option Sampler)
    (shots : Nat) (p1 p2 : Option ℚ) :
    sampleQap dflt s smp shots p1 = sampleQap dflt s smp shots p2 ∧
    (sampleQap dflt s smp shots p1).2.2 = s ∧
    (sampleQap dflt s smp shots p1).1 = (s.qubo, shots) :=
  ⟨rfl, rfl, rfl⟩

/-- C8 counterexample: a group cut that is an integer but not strictly
    positive is accepted by the constructor, contrary to the claim: with valid
    2 x 2 matrices, num_closets = 0 and num_closets = -1 both construct
    successfully (the source only rejects non-ints and ints >= N,
    time_qap.py lines 41-45). -/
theorem c8_cex :
    (timeQAPInit (.npmat [[0, 0], [0, 0]]) (.npmat [[0, 0], [0, 0]]) (.pyInt 0)).isOk = true ∧
    (timeQAPInit (.npmat [[0, 0], [0, 0]]) (.npmat [[0, 0], [0, 0]]) (.pyInt (-1))).isOk = true := by
  with_unfolding_all decide

/-- C8 amended: for inputs whose matrices pass validation, construction fails
    on the group-cut argument exactly when it is a non-None non-int (TypeError)
    or an int k with k >= N (ValueError); every int k < N, including zero and
    negative values, is accepted. -/
theorem c8_closet_validation (f d : PyVal)
    (h : (timeQAPInit f d .pyNone).isOk = true) (k : Int) :
    ((timeQAPInit f d (.pyInt k)).isOk = false ↔ Int.ofNat (shape0 f) ≤ k) ∧
    (timeQAPInit f d .nonInt).isOk = false := by
  unfold timeQAPInit at h ⊢
  split_ifs at h ⊢ <;> simp_all [Except.isOk, Except.toBool] <;>
    try (split_ifs <;> simp_all [Except.isOk, Except.toBool])

/-- Witness for c8_closet_validation: valid 2 x 2 matrices, k = 5 >= N = 2. -/
theorem c8_witness :
    ((timeQAPInit (.npmat [[0, 0], [0, 0]]) (.npmat [[0, 0], [0, 0]]) (.pyInt 5)).isOk = false ↔
      Int.ofNat (shape0 (.npmat [[0, 0], [0, 0]])) ≤ 5) ∧
    (timeQAPInit (.npmat [[0, 0], [0, 0]]) (.npmat [[0, 0], [0, 0]]) .nonInt).isOk = false :=
  c8_closet_validation (.npmat [[0, 0], [0, 0]]) (.npmat [[0, 0], [0, 0]])
    (by with_unfolding_all decide) 5

/-- The state fields touched by a successful time_evolve, at the level of
    python object references: a heap of array objects addressed by reference,
    and the prev_state / cur_state references and step counter of the tracker.
    This models the aliasing behaviour of time_qap.py lines 154-172 that the
    value-level TState model cannot express. -/
structure RefState where
  heap : List (List (List ℚ))
  prevRef : Option Nat
  curRef : Option Nat
  time : Nat
deriving DecidableEq, Repr

/-- The array object a reference points to. -/
def heapAt (h : List (List (List ℚ))) (r : Nat) : List (List ℚ) := h.getD r []

/-- Successful time_evolve on the state fields (time_qap.py lines 154-172):
    new_prev = self.cur_state; self.prev_state = new_prev makes prev_state an
    alias of the array cur_state pointed to (no copy is taken); cur_state is
    then re-bound to a freshly allocated array decoded from the solver response
    (np.array(...) allocates a new object); self.time += 1; the fresh array's
    reference is returned. -/
def evolveRefs (s : RefState) (resp : List (List ℚ)) : Except PyErr (RefState × Nat) :=
  match s.curRef with
  | none => .error .runtimeErr
  | some cr =>
    let s1 : RefState := { s with prevRef := some cr }
    let r2 := s1.heap.length
    .ok ({ s1 with heap := s1.heap ++ [resp], curRef := some r2, time := s1.time + 1 }, r2)

/-- In-place mutation arr[i, j] = v of one array object. -/
def setME (m : List (List ℚ)) (i j : Nat) (v : ℚ) : List (List ℚ) :=
  m.set i ((m.getD i []).set j v)

/-- In-place mutation of the array object at reference r. -/
def setEntry (s : RefState) (r i j : Nat) (v : ℚ) : RefState :=
  { s with heap := s.heap.set r (setME (heapAt s.heap r) i j v) }

/-- C6: a successful time_evolve on an initialised tracker sets prev_state to
    the array cur_state held immediately before the call, re-binds cur_state
    to a freshly allocated array (so mutating the new cur_state - equivalently
    the returned array, they are the same object - never changes the stored
    prev_state), and increments the step counter by exactly 1. -/
theorem c6_snapshot (s : RefState) (resp : List (List ℚ)) (cr : Nat)
    (h1 : s.curRef = some cr) (h2 : cr < s.heap.length) (s2 : RefState) (ret : Nat)
    (h3 : evolveRefs s resp = .ok (s2, ret)) :
    s2.prevRef = some cr ∧ s2.curRef = some ret ∧
    heapAt s2.heap cr = heapAt s.heap cr ∧
    s2.time = s.time + 1 ∧
    (∀ i j v, heapAt (setEntry s2 ret i j v).heap cr = heapAt s.heap cr) := by
  unfold evolveRefs at h3
  rw [h1] at h3
  simp only [Except.ok.injEq, Prod.mk.injEq] at h3
  obtain ⟨hs2, hret⟩ := h3
  subst hret
  subst hs2
  refine ⟨rfl, rfl, ?_, rfl, ?_⟩
  · exact List.getD_append _ _ _ _ h2
  · intro i j v
    have hne : s.heap.length ≠ cr := fun hh => absurd h2 (by rw [hh]; exact lt_irrefl cr)
    show ((s.heap ++ [resp]).set s.heap.length _).getD cr [] = s.heap.getD cr []
    rw [getD_set_ne _ _ _ _ _ hne]
    exact List.getD_append _ _ _ _ h2

/-- A concrete initialised reference state: one array on the heap, current. -/
def refPre : RefState :=
  { heap := [[[1, 0], [0, 1]]], prevRef := none, curRef := some 0, time := 0 }

/-- refPre after evolving with solver response [[0,1],[1,0]]. -/
def refPost : RefState :=
  { heap := [[[1, 0], [0, 1]], [[0, 1], [1, 0]]], prevRef := some 0, curRef := some 1, time := 1 }

/-- Witness for c6_snapshot: mutating the returned array of a concrete evolve
    leaves the stored previous state unchanged. -/
theorem c6_witness :
    heapAt (setEntry refPost 1 0 0 5).heap 0 = heapAt refPre.heap 0 :=
  (c6_snapshot refPre [[0, 1], [1, 0]] 0 rfl (by decide) refPost 1 rfl).2.2.2.2 0 0 5

/-- Witness for c3_entries at entry (0, 1) and at the first row of the matrix. -/
theorem c3_witness :
    (q3 0 1 = c3Amended 0 1 ∧ q3 0 1 = q3 1 0) ∧
    ((List.range 9).map (fun c => q3 0 c)).length = 9 :=
  ⟨c3_entries.1 0 1,
   c3_entries.2.2 ((List.range 9).map (fun c => q3 0 c))
     (List.mem_map.mpr ⟨0, by simp, rfl⟩)⟩
